import Mathlib

/-!
Verification of the ficha endpoint-enforcement agent (Rust, Tauri).

Shallow embedding of the core components from `src-tauri/src`:
the Matcher (`ProcessMonitor::process_matches`), the enforcement path
(`ProcessMonitor::check_and_kill_protected`), the candidate enumeration
(`ProcessMonitor::get_unique_processes`, `is_system_process`), the shield
state machine (`AppState` in `state.rs` plus the monitoring/idle tasks in
`lib.rs`), the idle tracker (`idle.rs`), and the stealth controller
(`stealth.rs`).

Rust strings are modelled as Lean `String`; the Rust `str` operations used
by the code (`to_lowercase`, `starts_with`, `contains`, `split('/')`) are
defined below over the character list, matching Rust's per-character
semantics (ASCII-faithful lowering).
-/

namespace Ficha

/-- Rust `str::to_lowercase`, per-character lowering (ASCII-faithful). -/
def lowerStr (s : String) : String := String.mk (s.data.map Char.toLower)

/-- Rust `str::starts_with`: the second string is a prefix of the first. -/
def startsWith (s p : String) : Bool := p.data.isPrefixOf s.data

/-- Helper for substring containment: does `hay` contain `needle` at some
position? Mirrors Rust `str::contains`. -/
def containsAux (needle : List Char) : List Char → Bool
  | [] => needle.isEmpty
  | c :: cs => needle.isPrefixOf (c :: cs) || containsAux needle cs

/-- Rust `str::contains`: substring containment. -/
def containsStr (s sub : String) : Bool := containsAux sub.data s.data

/-- `monitor.rs` `ProcessInfo`: pid, short name, optional executable path. -/
structure ProcessInfo where
  pid : Int
  name : String
  exe_path : Option String
deriving DecidableEq, Repr

/-- `monitor.rs` `AppCandidate`. -/
structure AppCandidate where
  name : String
  process_name : String
  exe_path : Option String
  category : String
deriving DecidableEq, Repr

/-- `ProcessMonitor::process_matches` (monitor.rs lines 118-158), translated
clause by clause: exact lowercase equality, symmetric prefix checks on the
lowered names, then (when an executable path is present) substring
containment in the lowered path and symmetric prefix checks against the
lowered final path segment. -/
def process_matches (protected_name process_name : String)
    (exe_path : Option String) : Bool :=
  let protected_lower := lowerStr protected_name
  let process_lower := lowerStr process_name
  if process_lower == protected_lower then
    true
  else if startsWith process_lower protected_lower then
    true
  else if startsWith protected_lower process_lower then
    true
  else
    match exe_path with
    | some exe =>
        let exe_lower := lowerStr exe
        if containsStr exe_lower protected_lower then
          true
        else
          match (exe.splitOn "/").getLast? with
          | some binary_name =>
              let binary_lower := lowerStr binary_name
              binary_lower == protected_lower
                || startsWith binary_lower protected_lower
                || startsWith protected_lower binary_lower
          | none => false
    | none => false

/-- The Matcher contract as the spec words it (section 4.2): four conditions,
first true wins; since every branch yields `true`, this is their
disjunction. Condition 4 reads the executable path lower-cased, and
compares the path's final segment case-insensitively with the symmetric
prefix check of conditions 2-3. -/
def matcher_spec_conditions (protected_name process_name : String)
    (exe_path : Option String) : Bool :=
  (lowerStr process_name == lowerStr protected_name)
  || startsWith (lowerStr process_name) (lowerStr protected_name)
  || startsWith (lowerStr protected_name) (lowerStr process_name)
  || (match exe_path with
      | some exe =>
          containsStr (lowerStr exe) (lowerStr protected_name)
          || (match (exe.splitOn "/").getLast? with
              | some binary_name =>
                  lowerStr binary_name == lowerStr protected_name
                  || startsWith (lowerStr binary_name) (lowerStr protected_name)
                  || startsWith (lowerStr protected_name) (lowerStr binary_name)
              | none => false)
      | none => false)

/-- The static list of known OS/daemon process-name prefixes
(monitor.rs lines 272-281, `system_processes`). -/
def system_processes : List String :=
  ["systemd", "kthreadd", "kworker", "ksoftirqd", "rcu_", "migration",
   "watchdog", "cpuhp", "kdevtmpfs", "netns", "khungtaskd", "oom_reaper",
   "writeback", "kcompactd", "crypto", "kblockd", "md", "kswapd",
   "init", "bash", "sh", "dbus", "upstart", "snapd"]

/-- `ProcessMonitor::is_system_process` (monitor.rs lines 272-281): true when
the name starts with any of the static system prefixes. -/
def is_system_process (name : String) : Bool :=
  system_processes.any (fun sys => startsWith name sys)

/-- `ProcessMonitor::check_and_kill_protected` (monitor.rs lines 88-114).
The snapshot of live processes and the outcome of the SIGKILL delivery
(`kill_process`, which can fail for an already-exited process or for lack
of privilege) are passed in as parameters; the function returns the
`(pid, name)` pairs pushed onto `killed`. Note: the body applies
`process_matches` to every enumerated process - `is_system_process` is not
consulted here. -/
def check_and_kill_protected (monitoring : Bool) (protectedNames : List String)
    (processes : List ProcessInfo) (killOk : Int → Bool) : List (Int × String) :=
  if !monitoring then []
  else
    processes.filterMap (fun p =>
      if protectedNames.any
          (fun protected_name => process_matches protected_name p.name p.exe_path)
          && killOk p.pid then
        some (p.pid, p.name)
      else none)

/-- Helper used by `format_display_name`: Rust's per-word capitalisation
(`first.to_uppercase().chain(chars)`, ASCII-faithful). -/
def capitalizeWord (word : String) : String :=
  match word.data with
  | [] => ""
  | c :: cs => String.mk (c.toUpper :: cs)

/-- `ProcessMonitor::format_display_name` (monitor.rs lines 283-296):
replace `-` and `_` by spaces, split on whitespace, capitalise each word,
join with single spaces. -/
def format_display_name (process_name : String) : String :=
  let name := String.mk (process_name.data.map
    (fun c => if c = '-' || c = '_' then ' ' else c))
  " ".intercalate
    (((name.split Char.isWhitespace).filter (fun w => w ≠ "")).map capitalizeWord)

/-- One step of the accumulation loop in `get_unique_processes`: skip system
processes, dedupe by process name (the `seen` HashSet modelled as the list
of names already inserted), append a candidate otherwise. -/
def uniqueStep (acc : List String × List AppCandidate) (p : ProcessInfo) :
    List String × List AppCandidate :=
  if is_system_process p.name then acc
  else if acc.1.contains p.name then acc
  else (p.name :: acc.1,
        acc.2 ++ [⟨format_display_name p.name, p.name, p.exe_path, "Running"⟩])

/-- `ProcessMonitor::get_unique_processes` (monitor.rs lines 192-218), with
the live snapshot passed in: filter out system processes, dedupe by name,
sort by display name. -/
def get_unique_processes (processes : List ProcessInfo) : List AppCandidate :=
  ((processes.foldl uniqueStep ([], [])).2).mergeSort
    (fun a b => a.name ≤ b.name)

/-- `state.rs` `ShieldStatus`. -/
inductive ShieldStatus
  | LOCKED
  | ACTIVE
  | THREAT_DETECTED
deriving DecidableEq, Repr

/-- The shield-relevant shared state: the `shield_status` mutex of
`AppState` (state.rs line 16) and the `is_monitoring` flag of
`ProcessMonitor` (monitor.rs line 26). -/
structure SystemSt where
  status : ShieldStatus
  monitoring : Bool
deriving DecidableEq, Repr

/-- Initial state: `AppState::new` (state.rs lines 20-28) stores
`ShieldStatus::LOCKED`; `ProcessMonitor::new` (monitor.rs lines 31-36)
stores `is_monitoring = false`. `run()` in lib.rs constructs both and
starts the tasks without calling `lock_shield`. -/
def sysInit : SystemSt := ⟨ShieldStatus.LOCKED, false⟩

/-- The operations that mutate the shield state:
`AppState::lock_shield` and `AppState::activate_shield` (state.rs lines
39-49), the kill callback of `setup_monitoring_task` (lib.rs lines
300-305), the delayed revert task it spawns (lib.rs lines 320-329), and
the idle auto-lock callback of `setup_idle_monitoring_task` (lib.rs lines
252-259). -/
inductive SysOp
  | lockShield
  | activateShield
  | killEvent
  | revertFire
  | idleAutoLock
deriving DecidableEq, Repr

/-- Effect of each operation, clause by clause from the source:
`lock_shield` writes LOCKED and `set_monitoring(true)`; `activate_shield`
writes ACTIVE and `set_monitoring(false)`; the kill callback writes
THREAT_DETECTED (and never touches `is_monitoring`); the revert task
writes LOCKED only when the current status is THREAT_DETECTED; the idle
callback writes LOCKED directly into the `shield_status` mutex and never
touches `is_monitoring`. -/
def applySysOp (s : SystemSt) : SysOp → SystemSt
  | SysOp.lockShield => ⟨ShieldStatus.LOCKED, true⟩
  | SysOp.activateShield => ⟨ShieldStatus.ACTIVE, false⟩
  | SysOp.killEvent => ⟨ShieldStatus.THREAT_DETECTED, s.monitoring⟩
  | SysOp.revertFire =>
      if s.status = ShieldStatus.THREAT_DETECTED
      then ⟨ShieldStatus.LOCKED, s.monitoring⟩
      else s
  | SysOp.idleAutoLock => ⟨ShieldStatus.LOCKED, s.monitoring⟩

/-- States reachable from startup by any interleaving of the shield
operations. -/
inductive ReachableSys : SystemSt → Prop
  | init : ReachableSys sysInit
  | step {s : SystemSt} (op : SysOp) : ReachableSys s → ReachableSys (applySysOp s op)

/-- Timed model of the kill/revert interplay in `setup_monitoring_task`
(lib.rs lines 281-332): the shield status together with the fire times of
the pending 3-second revert tasks. -/
structure MonSt where
  status : ShieldStatus
  timers : List Nat
deriving DecidableEq, Repr

/-- At startup the status is LOCKED and no revert task is pending. -/
def monInit : MonSt := ⟨ShieldStatus.LOCKED, []⟩

/-- One time unit of the monitoring task, given the times at which kill
events occur. A kill event at time `t` sets THREAT_DETECTED and spawns a
revert task that will fire at `t + 3`
(`tokio::time::sleep(Duration::from_secs(3))`, lib.rs line 321); a revert
task firing at time `t` writes LOCKED only when the status it finds is
still THREAT_DETECTED (`matches!` guard, lib.rs line 324). -/
def stepAt (kills : List Nat) (t : Nat) (s : MonSt) : MonSt :=
  let s1 := if kills.contains t
    then ⟨ShieldStatus.THREAT_DETECTED, (t + 3) :: s.timers⟩
    else s
  if s1.timers.contains t && (s1.status == ShieldStatus.THREAT_DETECTED)
  then ⟨ShieldStatus.LOCKED, s1.timers⟩
  else s1

/-- State after executing time units `0, 1, ..., t`. -/
def runUpTo (kills : List Nat) : Nat → MonSt
  | 0 => stepAt kills 0 monInit
  | t + 1 => stepAt kills (t + 1) (runUpTo kills t)

/-- Rust `as u64` cast of an `i64`: two's-complement wrapping cast. -/
def u64cast (i : Int) : Nat := (i % (2 ^ 64)).toNat

/-- `idle.rs` `IdleTracker`: the `Instant` is modelled as seconds on a
monotone clock, passed explicitly to the operations that read
`Instant::now()`. -/
structure IdleTracker where
  last_activity : Nat
  timeout_minutes : Int
  is_enabled : Bool
deriving DecidableEq, Repr

/-- `IdleTracker::new` (idle.rs lines 11-17): timeout defaults to 10
minutes, tracking disabled, `last_activity = Instant::now()`. -/
def IdleTracker.new (now : Nat) : IdleTracker := ⟨now, 10, false⟩

/-- `IdleTracker::reset` (idle.rs lines 20-23). -/
def IdleTracker.reset (tr : IdleTracker) (now : Nat) : IdleTracker :=
  { tr with last_activity := now }

/-- `IdleTracker::set_timeout` (idle.rs lines 45-48):
`minutes.min(10).max(1)`. -/
def IdleTracker.set_timeout (tr : IdleTracker) (minutes : Int) : IdleTracker :=
  { tr with timeout_minutes := max (min minutes 10) 1 }

/-- `IdleTracker::is_idle` (idle.rs lines 26-36): false when disabled,
otherwise compares the elapsed duration against
`Duration::from_secs((*timeout as u64) * 60)`; the cast is wrapping and
the `u64` multiplication wraps modulo `2 ^ 64`. `duration_since`
saturates at zero, as Nat subtraction does. -/
def IdleTracker.is_idle (tr : IdleTracker) (now : Nat) : Bool :=
  if !tr.is_enabled then false
  else decide ((u64cast tr.timeout_minutes * 60) % 2 ^ 64 ≤ now - tr.last_activity)

/-- `IdleTracker::set_enabled` (idle.rs lines 56-64): stores the flag and,
when enabling, resets the timer. -/
def IdleTracker.set_enabled (tr : IdleTracker) (enabled : Bool) (now : Nat) :
    IdleTracker :=
  let tr1 := { tr with is_enabled := enabled }
  if enabled then tr1.reset now else tr1

/-- One tick of `IdleTracker::start_monitoring_loop` (idle.rs lines 72-87):
when `is_idle()`, invoke the callback (the returned Bool records that one
invocation) and then reset; otherwise leave the tracker unchanged. -/
def tickIdle (tr : IdleTracker) (now : Nat) : Bool × IdleTracker :=
  if tr.is_idle now then (true, tr.reset now) else (false, tr)

/-- Every mutation of the tracker reachable through the code: direct
resets (user activity), `set_timeout` (already clamped or not), `set_enabled`
(policy toggle), and monitoring-loop ticks. -/
inductive IdleOp
  | reset (now : Nat)
  | setTimeout (minutes : Int)
  | setEnabled (enabled : Bool) (now : Nat)
  | tick (now : Nat)

/-- Apply one tracker operation. -/
def applyIdleOp (tr : IdleTracker) : IdleOp → IdleTracker
  | IdleOp.reset now => tr.reset now
  | IdleOp.setTimeout m => tr.set_timeout m
  | IdleOp.setEnabled b now => tr.set_enabled b now
  | IdleOp.tick now => (tickIdle tr now).2

/-- Apply a sequence of tracker operations from left to right. -/
def applyIdleOps (tr : IdleTracker) (ops : List IdleOp) : IdleTracker :=
  ops.foldl applyIdleOp tr

/-- Compilation target of `stealth.rs`: the `#[cfg(target_os = "linux")]`
body of `set_process_name` versus the `#[cfg(not(target_os = "linux"))]`
one. -/
inductive TargetOs
  | linux
  | nonLinux
deriving DecidableEq, Repr

/-- The OS-visible short name of the agent's own process. -/
structure OsProcessSt where
  visible_name : String
deriving DecidableEq, Repr

/-- `StealthMode::set_process_name` (stealth.rs lines 21-52). On Linux the
body calls `prctl(PR_SET_NAME, name)`; the kernel primitive is modelled
as updating the visible name and succeeding (both names used by the code
are NUL-free, so `CString::new` succeeds, and `PR_SET_NAME` accepts
them). On any other target the function is the stub that returns the
fixed unsupported-platform error. -/
def set_process_name (os : TargetOs) (name : String) (st : OsProcessSt) :
    Except String OsProcessSt :=
  match os with
  | TargetOs.linux => Except.ok { st with visible_name := name }
  | TargetOs.nonLinux => Except.error "Stealth mode only supported on Linux"

/-- `StealthMode::enable` (stealth.rs lines 7-12). -/
def StealthMode.enable (os : TargetOs) (st : OsProcessSt) :
    Except String OsProcessSt :=
  set_process_name os "systemd-resolve" st

/-- `StealthMode::disable` (stealth.rs lines 15-19). -/
def StealthMode.disable (os : TargetOs) (st : OsProcessSt) :
    Except String OsProcessSt :=
  set_process_name os "ficha-app" st

/-! ## Theorems -/

/-- Helper: `l.contains a` agrees with list membership (lawful `BEq`). -/
theorem contains_iff_mem {α : Type} [BEq α] [LawfulBEq α] {l : List α} {a : α} :
    l.contains a = true ↔ a ∈ l :=
  List.elem_iff

/-- Helper: the nested early-return structure of `process_matches` computes
exactly the disjunction of the spec's four conditions. -/
theorem process_matches_eq_spec (p n : String) (e : Option String) :
    process_matches p n e = matcher_spec_conditions p n e := by
  unfold process_matches matcher_spec_conditions
  rcases e with _ | exe
  · cases h1 : (lowerStr n == lowerStr p) <;>
      cases h2 : startsWith (lowerStr n) (lowerStr p) <;>
      cases h3 : startsWith (lowerStr p) (lowerStr n) <;>
      simp [h1, h2, h3]
  · cases h1 : (lowerStr n == lowerStr p) <;>
      cases h2 : startsWith (lowerStr n) (lowerStr p) <;>
      cases h3 : startsWith (lowerStr p) (lowerStr n) <;>
      simp [h1, h2, h3]

/-- C3: for every protected name, process name and optional executable
path, `process_matches` returns true exactly when one of the spec's four
conditions holds (case-insensitive equality, symmetric prefix checks,
executable-path containment or symmetric basename prefix check); in
particular the matcher is reflexive: `matches(p, p, _)` is true. -/
theorem C3_matcher_iff_spec_conditions (p n : String) (e : Option String) :
    (process_matches p n e = true ↔ matcher_spec_conditions p n e = true)
    ∧ process_matches p p e = true := by
  refine ⟨by rw [process_matches_eq_spec], ?_⟩
  unfold process_matches
  simp

/-- C10: the empty protected name matches every process: condition 2
(`process_name starts with protected_name`) holds vacuously for the empty
prefix, so one empty entry in the protected set flags every live process. -/
theorem C10_empty_protected_matches_all (n : String) (e : Option String) :
    process_matches "" n e = true := by
  have h2 : startsWith (lowerStr n) (lowerStr "") = true := by
    show (lowerStr "").data.isPrefixOf (lowerStr n).data = true
    have hnil : (lowerStr "").data = [] := rfl
    rw [hnil]
    cases (lowerStr n).data <;> rfl
  rw [process_matches_eq_spec]
  unfold matcher_spec_conditions
  simp [h2]

/-- C1 as stated is false: `check_and_kill_protected` applies
`process_matches` to every enumerated process and never consults
`is_system_process`; with `"bash"` in the protected set, the enforcement
path kills the system-prefixed process `bash`. -/
theorem C1_counterexample :
    is_system_process "bash" = true
    ∧ check_and_kill_protected true ["bash"] [⟨1, "bash", none⟩] (fun _ => true)
        = [((1 : Int), "bash")] := by
  constructor
  · rfl
  · rfl

/-- Helper: the dedup/filter fold of `get_unique_processes` only ever adds
candidates whose process name is not system-prefixed. -/
theorem uniqueFold_system_free (processes : List ProcessInfo)
    (acc : List String × List AppCandidate)
    (hacc : ∀ c ∈ acc.2, is_system_process c.process_name = false) :
    ∀ c ∈ (processes.foldl uniqueStep acc).2,
      is_system_process c.process_name = false := by
  induction processes generalizing acc with
  | nil => exact hacc
  | cons p ps ih =>
      refine ih (uniqueStep acc p) ?_
      unfold uniqueStep
      cases hsys : is_system_process p.name with
      | true => simpa using hacc
      | false =>
          cases hseen : acc.1.contains p.name with
          | true => simpa using hacc
          | false =>
              simp only [Bool.false_eq_true, if_false]
              intro c hc
              rcases List.mem_append.mp hc with h | h
              · exact hacc c h
              · rcases List.mem_singleton.mp h with rfl
                exact hsys

/-- C1 amended: the static system-prefix filter is applied only in the
candidate enumeration `get_unique_processes`; the enforcement path applies
the Matcher to every enumerated process regardless of
`is_system_process`, so any process (system-named or not) that matches a
protected name and whose kill signal succeeds appears in the kill list. -/
theorem C1_amended :
    (∀ processes : List ProcessInfo, ∀ c ∈ get_unique_processes processes,
        is_system_process c.process_name = false)
    ∧ (∀ (protectedNames : List String) (processes : List ProcessInfo)
         (killOk : Int → Bool) (p : ProcessInfo),
        p ∈ processes →
        protectedNames.any (fun q => process_matches q p.name p.exe_path) = true →
        killOk p.pid = true →
        (p.pid, p.name) ∈ check_and_kill_protected true protectedNames processes killOk) := by
  constructor
  · intro processes c hc
    unfold get_unique_processes at hc
    rw [List.mem_mergeSort] at hc
    exact uniqueFold_system_free processes ([], []) (by simp) c hc
  · intro protectedNames processes killOk p hp hmatch hkill
    unfold check_and_kill_protected
    simp only [Bool.not_true, Bool.false_eq_true, if_false]
    exact List.mem_filterMap.mpr ⟨p, hp, by simp [hmatch, hkill]⟩

/-- Witness for `C1_amended` at a concrete input: a brave-browser process
matching protected name "brave" with a succeeding kill is reported. -/
theorem C1_amended_witness :
    ((1 : Int), "brave-browser") ∈ check_and_kill_protected true ["brave"]
      [⟨1, "brave-browser", none⟩] (fun _ => true) :=
  C1_amended.2 ["brave"] [⟨1, "brave-browser", none⟩] (fun _ => true)
    ⟨1, "brave-browser", none⟩ (by simp) (by decide) rfl

/-- Helper: one time unit preserves the invariant that every pending revert
fire time is exactly three units after some kill event. -/
theorem stepAt_timers (kills : List Nat) (t : Nat) (s : MonSt)
    (hs : ∀ x ∈ s.timers, ∃ k ∈ kills, x = k + 3) :
    ∀ x ∈ (stepAt kills t s).timers, ∃ k ∈ kills, x = k + 3 := by
  unfold stepAt
  cases hk : kills.contains t with
  | false =>
      simp only [hk, Bool.false_eq_true, if_false]
      split
      · simpa using hs
      · simpa using hs
  | true =>
      simp only [hk, if_true]
      split <;>
      · intro x hx
        simp only [] at hx
        rcases List.mem_cons.mp hx with rfl | hmem
        · exact ⟨t, contains_iff_mem.mp hk, rfl⟩
        · exact hs x hmem

/-- Helper: in every run state, every pending revert fire time is exactly
three units after some kill event. -/
theorem runUpTo_timers (kills : List Nat) (t : Nat) :
    ∀ x ∈ (runUpTo kills t).timers, ∃ k ∈ kills, x = k + 3 := by
  induction t with
  | zero => exact stepAt_timers kills 0 monInit (by simp [monInit])
  | succ t ih => exact stepAt_timers kills (t + 1) _ ih

/-- C2 as stated is false: with kill events at times 0 and 1, the status is
THREAT_DETECTED at time 2 (re-set by the second kill at time 1), yet the
first kill's revert task fires at time 3 and writes LOCKED, because its
guard only checks that the status is still THREAT_DETECTED - 3 < 1 + 3, so
the revert fires before the grace delay measured from the second event,
with no newer status change in between. -/
theorem C2_counterexample :
    (runUpTo [0, 1] 2).status = ShieldStatus.THREAT_DETECTED
    ∧ (runUpTo [0, 1] 3).status = ShieldStatus.LOCKED
    ∧ 3 < 1 + 3 := by decide

/-- C2 amended: the revert task writes LOCKED only when the status it finds
is still THREAT_DETECTED, and every automatic THREAT_DETECTED-to-LOCKED
transition happens exactly three units after SOME kill event - possibly a
stale, earlier one, so the revert can fire before the grace delay measured
from the latest kill event. -/
theorem C2_amended (kills : List Nat) (t : Nat)
    (h1 : (runUpTo kills t).status = ShieldStatus.THREAT_DETECTED)
    (h2 : (runUpTo kills (t + 1)).status = ShieldStatus.LOCKED) :
    ∃ k ∈ kills, t + 1 = k + 3 := by
  have htimers := runUpTo_timers kills t
  have hrun : runUpTo kills (t + 1) = stepAt kills (t + 1) (runUpTo kills t) := rfl
  rw [hrun] at h2
  unfold stepAt at h2
  cases hk : kills.contains (t + 1) with
  | true =>
      simp only [hk, if_true] at h2
      cases hc : ((t + 1 + 3) :: (runUpTo kills t).timers).contains (t + 1) with
      | false =>
          have hcm : t + 1 ∉ (t + 1 + 3) :: (runUpTo kills t).timers := by
            intro hm
            rw [contains_iff_mem.mpr hm] at hc
            exact Bool.true_eq_false.mp hc
          simp [hcm] at h2
      | true =>
          have hmem := contains_iff_mem.mp hc
          rcases List.mem_cons.mp hmem with habs | hmem2
          · omega
          · exact htimers _ hmem2 |>.imp fun k hk2 => ⟨hk2.1, by omega⟩
  | false =>
      simp only [hk, Bool.false_eq_true, if_false] at h2
      cases hc : (runUpTo kills t).timers.contains (t + 1) with
      | false =>
          have hcm : t + 1 ∉ (runUpTo kills t).timers := by
            intro hm
            rw [contains_iff_mem.mpr hm] at hc
            exact Bool.true_eq_false.mp hc
          simp [hcm] at h2
          rw [h1] at h2
          exact absurd h2 (by simp)
      | true =>
          have hmem := contains_iff_mem.mp hc
          exact htimers _ hmem |>.imp fun k hk2 => ⟨hk2.1, by omega⟩

/-- Witness for `C2_amended`: a single kill at time 0, the revert at time 3. -/
theorem C2_amended_witness : ∃ k ∈ [0], 2 + 1 = k + 3 :=
  C2_amended [0] 2 (by decide) (by decide)

/-- C4 as stated is false at two explicitly reachable states: the initial
state (`AppState::new` stores LOCKED while `ProcessMonitor::new` stores
`is_monitoring = false`, and `run()` starts the tasks without calling
`lock_shield`), and the state after the idle auto-lock callback, which
writes LOCKED into the status mutex without calling `set_monitoring(true)`
(so from ACTIVE it yields LOCKED with monitoring still off). -/
theorem C4_counterexample :
    (ReachableSys sysInit
      ∧ sysInit.status = ShieldStatus.LOCKED ∧ sysInit.monitoring = false)
    ∧ (ReachableSys (applySysOp (applySysOp sysInit SysOp.activateShield) SysOp.idleAutoLock)
      ∧ (applySysOp (applySysOp sysInit SysOp.activateShield) SysOp.idleAutoLock).status
          = ShieldStatus.LOCKED
      ∧ (applySysOp (applySysOp sysInit SysOp.activateShield) SysOp.idleAutoLock).monitoring
          = false) :=
  ⟨⟨ReachableSys.init, rfl, rfl⟩,
   ⟨ReachableSys.step SysOp.idleAutoLock
      (ReachableSys.step SysOp.activateShield ReachableSys.init), rfl, rfl⟩⟩

/-- C4 amended: the implication that does hold in every reachable state is
the converse direction - when the scan loop's monitoring flag is on, the
status is never ACTIVE; and `lock_shield` (the explicit lock command)
always establishes LOCKED with monitoring on. LOCKED does not imply
monitoring: the initial state and the idle auto-lock callback both leave
status LOCKED with monitoring off. -/
theorem C4_amended :
    (∀ s, ReachableSys s → s.monitoring = true → s.status ≠ ShieldStatus.ACTIVE)
    ∧ (∀ s, (applySysOp s SysOp.lockShield).status = ShieldStatus.LOCKED
        ∧ (applySysOp s SysOp.lockShield).monitoring = true) := by
  constructor
  · intro s hs
    induction hs with
    | init => intro h; exact absurd h (by simp [sysInit])
    | @step s1 op hs ih =>
        cases op with
        | lockShield => intro _; simp [applySysOp]
        | activateShield => intro h; exact absurd h (by simp [applySysOp])
        | killEvent => intro _; simp [applySysOp]
        | idleAutoLock => intro _; simp [applySysOp]
        | revertFire =>
            simp only [applySysOp]
            by_cases hst : s1.status = ShieldStatus.THREAT_DETECTED
            · rw [if_pos hst]; intro _; simp
            · rw [if_neg hst]; exact ih
  · intro s
    exact ⟨rfl, rfl⟩

/-- Witness for `C4_amended`: the state reached by locking from startup has
monitoring on and its status is not ACTIVE. -/
theorem C4_amended_witness :
    (applySysOp sysInit SysOp.lockShield).status ≠ ShieldStatus.ACTIVE :=
  C4_amended.1 (applySysOp sysInit SysOp.lockShield)
    (ReachableSys.step SysOp.lockShield ReachableSys.init) rfl

/-- Helper: full characterisation of a run with a single kill event at time
`k`: untouched before `k`, THREAT_DETECTED with one pending revert from
`k` up to (excluding) `k + 3`, LOCKED from `k + 3` on. -/
theorem runUpTo_single_kill (k t : Nat) :
    runUpTo [k] t =
      if t < k then monInit
      else if t < k + 3 then ⟨ShieldStatus.THREAT_DETECTED, [k + 3]⟩
      else ⟨ShieldStatus.LOCKED, [k + 3]⟩ := by
  induction t with
  | zero =>
      show stepAt [k] 0 monInit = _
      unfold stepAt
      by_cases h1 : (0 : Nat) < k
      · have hne : ¬ ((0 : Nat) = k) := by omega
        simp [h1, hne, monInit]
      · have hk0 : k = 0 := by omega
        subst hk0
        simp [monInit]
  | succ t ih =>
      show stepAt [k] (t + 1) (runUpTo [k] t) = _
      rw [ih]
      unfold stepAt
      by_cases h1 : t + 1 < k
      · have ht : t < k := by omega
        have hne : ¬ (t + 1 = k) := by omega
        simp [ht, h1, hne, monInit]
      · by_cases h2 : t + 1 < k + 3
        · by_cases h3 : t < k
          · have heq : t + 1 = k := by omega
            have hkk : ¬ (k = k + 3) := by omega
            simp [h3, h1, h2, heq, hkk, monInit]
          · have ht2 : t < k + 3 := by omega
            have hne : ¬ (t + 1 = k) := by omega
            have htimer : ¬ (t + 1 = k + 3) := by omega
            simp [h3, ht2, h1, h2, hne, htimer]
        · by_cases h4 : t + 1 = k + 3
          · have h5 : ¬ t < k := by omega
            have h6 : t < k + 3 := by omega
            have hne : ¬ (t + 1 = k) := by omega
            simp [h5, h6, h1, h2, hne, h4]
          · have h5 : ¬ t < k := by omega
            have h6 : ¬ t < k + 3 := by omega
            have hne : ¬ (t + 1 = k) := by omega
            have htimer : ¬ (t + 1 = k + 3) := by omega
            simp [h5, h6, h1, h2, hne, htimer]

/-- C5: `lock_shield` yields LOCKED with monitoring on from any state;
`activate_shield` yields ACTIVE with monitoring off from any state; a kill
event while LOCKED drives the status to THREAT_DETECTED; and a run with a
single kill event at time `k` and no further events reads THREAT_DETECTED
from `k` up to (excluding) `k + 3` and is back to LOCKED at `k + 3`. -/
theorem C5_transitions :
    (∀ s, (applySysOp s SysOp.lockShield).status = ShieldStatus.LOCKED
        ∧ (applySysOp s SysOp.lockShield).monitoring = true)
    ∧ (∀ s, (applySysOp s SysOp.activateShield).status = ShieldStatus.ACTIVE
        ∧ (applySysOp s SysOp.activateShield).monitoring = false)
    ∧ (∀ s, s.status = ShieldStatus.LOCKED →
        (applySysOp s SysOp.killEvent).status = ShieldStatus.THREAT_DETECTED)
    ∧ (∀ k t, k ≤ t → t < k + 3 →
        (runUpTo [k] t).status = ShieldStatus.THREAT_DETECTED)
    ∧ (∀ k, (runUpTo [k] (k + 3)).status = ShieldStatus.LOCKED) := by
  refine ⟨fun s => ⟨rfl, rfl⟩, fun s => ⟨rfl, rfl⟩, fun s _ => rfl, ?_, ?_⟩
  · intro k t hk ht
    rw [runUpTo_single_kill]
    have h1 : ¬ t < k := by omega
    simp [h1, ht]
  · intro k
    rw [runUpTo_single_kill]
    have h1 : ¬ k + 3 < k := by omega
    have h2 : ¬ k + 3 < k + 3 := by omega
    simp [h1, h2]

/-- Witness for `C5_transitions`: the kill-while-LOCKED and grace-delay
clauses at concrete inputs (kill at time 0, revert at time 3). -/
theorem C5_transitions_witness :
    (applySysOp sysInit SysOp.killEvent).status = ShieldStatus.THREAT_DETECTED
    ∧ (runUpTo [0] 2).status = ShieldStatus.THREAT_DETECTED
    ∧ (runUpTo [0] 3).status = ShieldStatus.LOCKED :=
  ⟨C5_transitions.2.2.1 sysInit rfl,
   C5_transitions.2.2.2.1 0 2 (by decide) (by decide),
   C5_transitions.2.2.2.2 0⟩

/-- Helper: every tracker operation preserves the clamp invariant
`1 ≤ timeout_minutes ≤ 10`. -/
theorem applyIdleOp_timeout_bounds (tr : IdleTracker) (op : IdleOp)
    (h : 1 ≤ tr.timeout_minutes ∧ tr.timeout_minutes ≤ 10) :
    1 ≤ (applyIdleOp tr op).timeout_minutes
    ∧ (applyIdleOp tr op).timeout_minutes ≤ 10 := by
  cases op with
  | reset now => simpa [applyIdleOp, IdleTracker.reset] using h
  | setTimeout m =>
      constructor
      · show 1 ≤ max (min m 10) 1
        omega
      · show max (min m 10) 1 ≤ 10
        omega
  | setEnabled b now =>
      show 1 ≤ (tr.set_enabled b now).timeout_minutes
        ∧ (tr.set_enabled b now).timeout_minutes ≤ 10
      unfold IdleTracker.set_enabled IdleTracker.reset
      split <;> simpa using h
  | tick now =>
      show 1 ≤ (tickIdle tr now).2.timeout_minutes
        ∧ (tickIdle tr now).2.timeout_minutes ≤ 10
      unfold tickIdle IdleTracker.reset
      split <;> simpa using h

/-- Helper: the clamp invariant holds in every tracker state reachable from
`IdleTracker::new` by any operation sequence. -/
theorem idle_fold_bounds (ops : List IdleOp) (tr : IdleTracker)
    (h : 1 ≤ tr.timeout_minutes ∧ tr.timeout_minutes ≤ 10) :
    1 ≤ (ops.foldl applyIdleOp tr).timeout_minutes
    ∧ (ops.foldl applyIdleOp tr).timeout_minutes ≤ 10 := by
  induction ops generalizing tr with
  | nil => exact h
  | cons op ops ih => exact ih _ (applyIdleOp_timeout_bounds tr op h)

/-- Helper: reachable-state form of the clamp invariant. -/
theorem idle_reach_bounds (now0 : Nat) (ops : List IdleOp) :
    1 ≤ (applyIdleOps (IdleTracker.new now0) ops).timeout_minutes
    ∧ (applyIdleOps (IdleTracker.new now0) ops).timeout_minutes ≤ 10 :=
  idle_fold_bounds ops (IdleTracker.new now0)
    ⟨by show (1 : Int) ≤ 10; omega, by show (10 : Int) ≤ 10; omega⟩

/-- C6: `set_timeout(x)` stores a value in `[1, 10]` for every integer
input, and every tracker state reachable from `IdleTracker::new` by any
sequence of operations has `timeout_minutes` in `[1, 10]`. -/
theorem C6_timeout_clamped :
    (∀ (tr : IdleTracker) (x : Int),
        1 ≤ (tr.set_timeout x).timeout_minutes
        ∧ (tr.set_timeout x).timeout_minutes ≤ 10)
    ∧ (∀ (now0 : Nat) (ops : List IdleOp),
        1 ≤ (applyIdleOps (IdleTracker.new now0) ops).timeout_minutes
        ∧ (applyIdleOps (IdleTracker.new now0) ops).timeout_minutes ≤ 10) := by
  constructor
  · intro tr x
    unfold IdleTracker.set_timeout
    constructor
    · show 1 ≤ max (min x 10) 1
      omega
    · show max (min x 10) 1 ≤ 10
      omega
  · exact idle_reach_bounds

/-- Helper: under the clamp invariant, the wrapped `u64` threshold
`from_secs((timeout as u64) * 60)` is exactly `timeout.toNat * 60`
seconds. -/
theorem idle_threshold_eq (tm : Int) (h1 : 1 ≤ tm) (h2 : tm ≤ 10) :
    (u64cast tm * 60) % 2 ^ 64 = tm.toNat * 60 := by
  have hpowZ : (2 : Int) ^ 64 = 18446744073709551616 := by norm_num
  have hpowN : (2 : Nat) ^ 64 = 18446744073709551616 := by norm_num
  have hcast : u64cast tm = tm.toNat := by
    unfold u64cast
    rw [Int.emod_eq_of_lt (by omega) (by omega)]
  rw [hcast]
  exact Nat.mod_eq_of_lt (by omega)

/-- C7: in every reachable tracker state, `set_enabled(true)` resets
`last_activity` to the current instant, and `is_idle` evaluated at that
same instant returns false (the timeout is at least one minute and zero
time has elapsed). -/
theorem C7_enable_resets_not_idle (now0 : Nat) (ops : List IdleOp) (now : Nat) :
    ((applyIdleOps (IdleTracker.new now0) ops).set_enabled true now).last_activity = now
    ∧ ((applyIdleOps (IdleTracker.new now0) ops).set_enabled true now).is_idle now
        = false := by
  have hb := idle_reach_bounds now0 ops
  constructor
  · rfl
  · unfold IdleTracker.is_idle IdleTracker.set_enabled IdleTracker.reset
    simp only [Bool.not_true, Bool.false_eq_true, if_false, if_true]
    rw [idle_threshold_eq _ hb.1 hb.2]
    simp only [Nat.sub_self, decide_eq_false_iff_not, Nat.not_le]
    have := hb.1
    omega

/-- C8: on one idle-monitoring tick, if tracking is enabled and the elapsed
time reaches the timeout (in seconds), the callback fires exactly once
(recorded by the returned flag) and `last_activity` is reset to the tick
instant, so a subsequent tick before another full timeout has elapsed does
not fire; if the tracker reads not idle (disabled, or elapsed below the
timeout), the callback does not fire and the tracker is unchanged. -/
theorem C8_tick_fires_once (tr : IdleTracker) (now nxt : Nat)
    (h1 : 1 ≤ tr.timeout_minutes) (h2 : tr.timeout_minutes ≤ 10) :
    (tr.is_enabled = true →
      tr.timeout_minutes.toNat * 60 ≤ now - tr.last_activity →
      tickIdle tr now = (true, { tr with last_activity := now })
        ∧ (nxt - now < tr.timeout_minutes.toNat * 60 →
            ((tickIdle tr now).2).is_idle nxt = false))
    ∧ (tr.is_idle now = false → tickIdle tr now = (false, tr)) := by
  constructor
  · intro hen helapsed
    have hidle : tr.is_idle now = true := by
      unfold IdleTracker.is_idle
      rw [hen]
      simp only [Bool.not_true, Bool.false_eq_true, if_false]
      rw [idle_threshold_eq _ h1 h2]
      exact decide_eq_true helapsed
    have htick : tickIdle tr now = (true, { tr with last_activity := now }) := by
      unfold tickIdle
      rw [hidle]
      rfl
    refine ⟨htick, fun hnext => ?_⟩
    rw [htick]
    show IdleTracker.is_idle { tr with last_activity := now } nxt = false
    unfold IdleTracker.is_idle
    simp only [hen, Bool.not_true, Bool.false_eq_true, if_false]
    rw [idle_threshold_eq _ h1 h2]
    simp only [decide_eq_false_iff_not, Nat.not_le]
    exact hnext
  · intro hnotidle
    unfold tickIdle
    rw [hnotidle]
    rfl

/-- Witness for `C8_tick_fires_once`: timeout one minute, enabled, last
activity 61 seconds ago; the tick fires once, resets, and the next tick
five seconds later does not fire. -/
theorem C8_tick_fires_once_witness :
    tickIdle ⟨0, 1, true⟩ 61 = (true, ⟨61, 1, true⟩)
    ∧ ((tickIdle ⟨0, 1, true⟩ 61).2).is_idle 66 = false := by
  have h := C8_tick_fires_once ⟨0, 1, true⟩ 61 66 (by decide) (by decide)
  have hfire := h.1 rfl (by norm_num)
  exact ⟨hfire.1, hfire.2 (by norm_num)⟩

/-- C9: on a non-Linux target both stealth operations return the explicit
unsupported-platform error (they do not silently no-op); on Linux,
`enable()` sets the fixed decoy name "systemd-resolve" and is idempotent:
a second `enable()` leaves the visible name unchanged. -/
theorem C9_stealth_unsupported_and_idempotent (st : OsProcessSt) :
    (StealthMode.enable TargetOs.nonLinux st
        = Except.error "Stealth mode only supported on Linux")
    ∧ (StealthMode.disable TargetOs.nonLinux st
        = Except.error "Stealth mode only supported on Linux")
    ∧ (StealthMode.enable TargetOs.linux st = Except.ok ⟨"systemd-resolve"⟩)
    ∧ (∀ st1, StealthMode.enable TargetOs.linux st = Except.ok st1 →
        StealthMode.enable TargetOs.linux st1 = Except.ok st1) := by
  refine ⟨rfl, rfl, rfl, ?_⟩
  intro st1 h
  have : st1 = ⟨"systemd-resolve"⟩ := by
    have := Except.ok.inj h
    exact this.symm
  subst this
  rfl

/-- Witness for `C9_stealth_unsupported_and_idempotent`: enabling twice
from the restored name converges to the decoy name. -/
theorem C9_witness :
    StealthMode.enable TargetOs.linux ⟨"systemd-resolve"⟩
      = Except.ok ⟨"systemd-resolve"⟩ :=
  (C9_stealth_unsupported_and_idempotent ⟨"ficha-app"⟩).2.2.2 ⟨"systemd-resolve"⟩ rfl

end Ficha
